import Mathlib

/-!
# Verification of the casino ETL pipeline (`gaming-etl.py`)

A shallow embedding of the pipeline in `src/gaming-etl.py`:

* `Date`, `SourceRecord`, `GoldRecord` model the data flowing through the
  pipeline; numeric amounts are modelled as rationals (`ℚ`), absent values
  (SQL NULL / pandas NaN) as `Option`.
* `transform_data` embeds the pandas transform: age in fractional years
  (`(date - birthdate).dt.days / 365.25`), `pd.cut` bucketing with
  `right=False`, VIP-status strip/upper/replace, EUR conversion and
  `fillna` defaulting, and the final column projection.
* `load_data` embeds the `INSERT ... ON CONFLICT (natural key) DO UPDATE SET
  updated_at = current_timestamp` upsert against the `gold_summary` table,
  modelled as a list of stored rows with `created_at` / `updated_at` marks.
* `load_data_tx` embeds the transactional shape of the loader: pages of
  `page_size` rows executed inside one transaction, a single commit at the
  end, and rollback (state unchanged) when any row application fails.
* `extract_data` embeds the extraction query: inner join to `users`, left
  joins to manufacturers (latest flag), providers and currency rates, the
  optional date filter, and `order by cd.date`.
* `parseArgs` / `main_dispatch` embed the argument handling in `main`,
  which runs before any database connection is made.
-/

namespace GamingEtl

/-- Calendar date (year, month, day). -/
structure Date where
  year : Nat
  month : Nat
  day : Nat
deriving DecidableEq, Repr

/-- Days-from-civil (Julian day number of a Gregorian date); differences of
this function are exact day counts, matching `(d1 - d2).dt.days` on pandas
datetimes. -/
def Date.toDays (d : Date) : Nat :=
  let a := (14 - d.month) / 12
  let y := d.year + 4800 - a
  let m := d.month + 12 * a - 3
  d.day + (153 * m + 2) / 5 + 365 * y + y / 4 - y / 100 + y / 400 - 32045

/-- Chronological order on dates, lexicographic on (year, month, day);
this is the order `order by cd.date` and `datetime` comparison use. -/
def Date.le (a b : Date) : Prop :=
  a.year < b.year ∨ (a.year = b.year ∧
    (a.month < b.month ∨ (a.month = b.month ∧ a.day ≤ b.day)))

/-- Strict chronological order on dates. -/
def Date.lt (a b : Date) : Prop :=
  a.year < b.year ∨ (a.year = b.year ∧
    (a.month < b.month ∨ (a.month = b.month ∧ a.day < b.day)))

instance : DecidablePred fun p : Date × Date => Date.le p.1 p.2 := by
  intro p; unfold Date.le; infer_instance

instance (a b : Date) : Decidable (Date.le a b) := by
  unfold Date.le; infer_instance

instance (a b : Date) : Decidable (Date.lt a b) := by
  unfold Date.lt; infer_instance

/-- One row of the extraction query's result (`extract_data`'s DataFrame):
`eurorate`, `casinomanufacturername` and `casinoprovidername` come from left
joins and may be NULL. -/
structure SourceRecord where
  date : Date
  country : String
  sex : String
  birthdate : Date
  vipstatus : String
  ggr : ℚ
  returns : ℚ
  eurorate : Option ℚ
  casinomanufacturername : Option String
  casinoprovidername : Option String
  currencyid : Int
deriving DecidableEq, Repr

/-- One row of the transformed output (the 9 projected columns).
`agegroup` is `none` when `pd.cut` assigns no bin (NaN). -/
structure GoldRecord where
  date : Date
  country : String
  sex : String
  agegroup : Option String
  vipstatus : String
  casinomanufacturername : String
  casinoprovidername : String
  ggr_eur : ℚ
  returns_eur : ℚ
deriving DecidableEq, Repr

/-! ## String normalization (Python `str.strip` / `str.upper` on ASCII) -/

/-- Characters stripped by Python `str.strip()` (ASCII whitespace). -/
def isPySpace (c : Char) : Bool :=
  c = ' ' || c = '\t' || c = '\n' || c = '\x0b' || c = '\x0c' || c = '\r'

/-- Python `str.strip()`: drop leading and trailing whitespace. -/
def pyStrip (s : String) : String :=
  ⟨((s.data.dropWhile isPySpace).reverse.dropWhile isPySpace).reverse⟩

/-- Python `str.upper()` (ASCII range, which is all the pipeline's data uses). -/
def pyUpper (s : String) : String :=
  ⟨s.data.map Char.toUpper⟩

/-! ## Transformer (`transform_data`) -/

/-- The `vip_mapping` dict of `transform_data`, in source order. -/
def vip_mapping : List (String × String) :=
  [("NOT VIP", "Not VIP"), ("POTENTIAL", "Potential"),
   ("BRONZ E", "Bronze"), ("ELI T E", "Elite")]

/-- Embeds `df['vipstatus'].str.strip().str.upper()` followed by
`.replace(vip_mapping)`: strip, uppercase, then exact-key lookup with
passthrough on no match. -/
def normalizeVip (s : String) : String :=
  let t := pyUpper (pyStrip s)
  match vip_mapping.lookup t with
  | some v => v
  | none => t

/-- The `bins` argument of `pd.cut`. -/
def ageBins : List ℚ := [0, 18, 21, 27, 33, 41, 50, 999]

/-- The `labels` argument of `pd.cut`. -/
def ageLabels : List String :=
  ["Under 18", "18-20", "21-26", "27-32", "33-40", "41-50", "50+"]

/-- Embeds `pd.cut(x, bins, labels, right=False)` for one value: the first
left-closed right-open interval `[b_i, b_{i+1})` containing `x`, or `none`
(NaN) when `x` falls outside every bin. -/
def cut (x : ℚ) : List ℚ → List String → Option String
  | b0 :: b1 :: bs, lab :: labs =>
      if b0 ≤ x ∧ x < b1 then some lab else cut x (b1 :: bs) labs
  | _, _ => none

/-- The pipeline's age bucketing: `pd.cut(age, ageBins, ageLabels, right=False)`. -/
def ageGroup (a : ℚ) : Option String :=
  cut a ageBins ageLabels

/-- Embeds `(df['date'] - df['birthdate']).dt.days` as a signed day count. -/
def daysBetween (birthdate date : Date) : Int :=
  (date.toDays : Int) - (birthdate.toDays : Int)

/-- Embeds `df['age'] = days / 365.25` (365.25 = 1461/4, exactly). -/
def ageOf (r : SourceRecord) : ℚ :=
  ((daysBetween r.birthdate r.date : Int) : ℚ) / (1461 / 4)

/-- The per-row transform applied by `transform_data`: age bucketing, VIP
normalization, EUR conversion (`NaN` when `eurorate` is absent, then
`fillna(0)`), `fillna('Unknown')` for manufacturer/provider, and projection
onto the 9 final columns. -/
def transformRow (r : SourceRecord) : GoldRecord :=
  { date := r.date
    country := r.country
    sex := r.sex
    agegroup := ageGroup (ageOf r)
    vipstatus := normalizeVip r.vipstatus
    casinomanufacturername := r.casinomanufacturername.getD "Unknown"
    casinoprovidername := r.casinoprovidername.getD "Unknown"
    ggr_eur := match r.eurorate with
               | some e => r.ggr * e
               | none => 0
    returns_eur := match r.eurorate with
                   | some e => r.returns * e
                   | none => 0 }

/-- Embeds `transform_data`: empty input returns an empty frame; otherwise every
row is transformed (no row is dropped or added). -/
def transform_data (l : List SourceRecord) : List GoldRecord :=
  match l with
  | [] => []
  | _ => l.map transformRow

/-! ## Loader (`load_data` and the `gold_summary` table) -/

/-- One persisted row of `gold_summary`: the 9 natural-key business columns
plus the `created_at` / `updated_at` timestamps. -/
structure StoredRow where
  gold : GoldRecord
  created_at : Nat
  updated_at : Nat
deriving DecidableEq, Repr

/-- The target table's contents. -/
abbrev Table := List StoredRow

/-- Whether the table already holds a row with this natural key (the
9-column tuple, i.e. the whole `GoldRecord`). -/
def hasKey (t : Table) (r : GoldRecord) : Bool :=
  t.any (fun s => decide (s.gold = r))

/-- One row of the `INSERT ... ON CONFLICT (natural key) DO UPDATE SET
updated_at = current_timestamp` statement: on a key collision only
`updated_at` of the existing row is refreshed; otherwise the row is
inserted with both timestamps set to `now`. -/
def upsert (now : Nat) (t : Table) (r : GoldRecord) : Table :=
  if hasKey t r then
    t.map (fun s => if s.gold = r then { s with updated_at := now } else s)
  else
    t ++ [⟨r, now, now⟩]

/-- Embeds `load_data`: early return on an empty frame, otherwise upsert every
record of the batch. -/
def load_data (now : Nat) (t : Table) (batch : List GoldRecord) : Table :=
  match batch with
  | [] => t
  | _ => batch.foldl (upsert now) t

/-! ## Transactional shape of the loader (`execute_values` + single commit) -/

/-- Paging of `execute_values`: the batch split into consecutive pages of
`n` rows (the source passes `page_size=1000`). -/
def toPages {α : Type} (n : Nat) : List α → List (List α)
  | [] => []
  | x :: xs => (x :: xs.take (n - 1)) :: toPages n (xs.drop (n - 1))
  termination_by l => l.length
  decreasing_by simp [List.length_drop]; omega

/-- Run one page of row applications inside the open transaction; any
row-level database error aborts the whole statement. -/
def applyPage (apply : Table → GoldRecord → Except String Table)
    (t : Table) (page : List GoldRecord) : Except String Table :=
  page.foldlM apply t

/-- Run all pages of the batch inside one transaction. -/
def applyPages (apply : Table → GoldRecord → Except String Table)
    (n : Nat) (t : Table) (batch : List GoldRecord) : Except String Table :=
  (toPages n batch).foldlM (applyPage apply) t

/-- The loader's transaction: empty batch is an early-return no-op; a
non-empty batch runs all pages and commits once at the end (`conn.commit()`),
so the durable table state is the fully-applied batch on success and the
original table on any failure (no commit, rollback on close). -/
def load_data_tx (apply : Table → GoldRecord → Except String Table)
    (n : Nat) (t : Table) (batch : List GoldRecord) : Table :=
  match batch with
  | [] => t
  | _ =>
    match applyPages apply n t batch with
    | .ok t2 => t2
    | .error _ => t

/-! ## Extractor (`extract_data` and its join query) -/

/-- A row of the `casinodaily` source table. -/
structure CasinoDailyRow where
  userid : Int
  date : Date
  ggr : ℚ
  returns : ℚ
  eurorate : Option ℚ
  casinomanufacturerid : Int
  casinoproviderid : Int
  currencyid : Int
deriving DecidableEq, Repr

/-- A row of the `users` dimension (primary key `user_id`). -/
structure UserRow where
  user_id : Int
  country : String
  sex : String
  birthdate : Date
  vipstatus : String
deriving DecidableEq, Repr

/-- A row of the `casinomanufacturers` dimension. -/
structure ManufacturerRow where
  casinomanufacturerid : Int
  casinomanufacturername : String
  latestflag : Int
deriving DecidableEq, Repr

/-- A row of the `casinoproviders` dimension. -/
structure ProviderRow where
  casinoproviderid : Int
  casinoprovidername : String
deriving DecidableEq, Repr

/-- A row of the `currencyrates` table, keyed by (date, tocurrencyid). -/
structure CurrencyRateRow where
  date : Date
  tocurrencyid : Int
  eurorate : ℚ
deriving DecidableEq, Repr

/-- The source database the extraction query reads. -/
structure SourceDB where
  casinodaily : List CasinoDailyRow
  users : List UserRow
  casinomanufacturers : List ManufacturerRow
  casinoproviders : List ProviderRow
  currencyrates : List CurrencyRateRow

/-- SQL left join: all matches, or a single NULL row when there is none. -/
def leftJoin {β : Type} (hits : List β) : List (Option β) :=
  match hits with
  | [] => [none]
  | l => l.map some

/-- The select list of the extraction query, for one combination of joined
rows: `upper(trim(u.sex))`, `trim(u.vipstatus)`, and the left-joined
columns as NULLable values. -/
def mkSourceRecord (cd : CasinoDailyRow) (u : UserRow)
    (om : Option ManufacturerRow) (op : Option ProviderRow)
    (orate : Option CurrencyRateRow) : SourceRecord :=
  { date := cd.date
    country := u.country
    sex := pyUpper (pyStrip u.sex)
    birthdate := u.birthdate
    vipstatus := pyStrip u.vipstatus
    ggr := cd.ggr
    returns := cd.returns
    eurorate := orate.map (·.eurorate)
    casinomanufacturername := om.map (·.casinomanufacturername)
    casinoprovidername := op.map (·.casinoprovidername)
    currencyid := cd.currencyid }

/-- The `latest_manufacturers` CTE: manufacturers with `latestflag = 1`. -/
def latest_manufacturers (db : SourceDB) : List ManufacturerRow :=
  db.casinomanufacturers.filter (fun m => m.latestflag = 1)

/-- The unfiltered join result of the extraction query: `casinodaily`
inner-joined to `users` on `cd.userid = u.user_id`, left-joined to the
latest manufacturers, providers, and currency rates on
`(cd.date, cd.currencyid) = (cr.date, cr.tocurrencyid)`. -/
def joinAll (db : SourceDB) : List SourceRecord :=
  db.casinodaily.flatMap fun cd =>
    (db.users.filter (fun u => cd.userid = u.user_id)).flatMap fun u =>
      (leftJoin ((latest_manufacturers db).filter
          (fun m => m.casinomanufacturerid = cd.casinomanufacturerid))).flatMap fun om =>
        (leftJoin (db.casinoproviders.filter
            (fun p => p.casinoproviderid = cd.casinoproviderid))).flatMap fun op =>
          (leftJoin (db.currencyrates.filter
              (fun cr => cr.date = cd.date ∧ cr.tocurrencyid = cd.currencyid))).map fun orate =>
            mkSourceRecord cd u om op orate

/-- The comparison `order by cd.date` sorts with. -/
def dateLeB (a b : SourceRecord) : Bool :=
  decide (Date.le a.date b.date)

/-- Embeds `extract_data`: the join result, restricted by the optional date
filter (inclusive range when both dates are given, exact match when only
`start_date` is given, unfiltered otherwise), sorted ascending by the
business date. -/
def extract_data (db : SourceDB) (start_date end_date : Option Date) :
    List SourceRecord :=
  let rows : List SourceRecord := joinAll db
  let filtered : List SourceRecord :=
    match start_date, end_date with
    | some s, some e =>
        rows.filter (fun r : SourceRecord =>
          decide (Date.le s r.date) && decide (Date.le r.date e))
    | some s, none =>
        rows.filter (fun r : SourceRecord => decide (r.date = s))
    | none, _ => rows
  filtered.mergeSort dateLeB

/-! ## Argument handling (`main`, before any database work) -/

/-- Number of days in a month of the (proleptic) Gregorian calendar, as
`datetime` validates it. -/
def daysInMonth (year month : Nat) : Nat :=
  if month = 2 then
    if year % 4 = 0 ∧ (year % 100 ≠ 0 ∨ year % 400 = 0) then 29 else 28
  else if month = 4 ∨ month = 6 ∨ month = 9 ∨ month = 11 then 30
  else 31

/-- Split a character list on a separator (used to model the `%Y-%m-%d`
format's literal dashes). -/
def splitOnChar (sep : Char) : List Char → List (List Char)
  | [] => [[]]
  | c :: cs =>
      match splitOnChar sep cs with
      | [] => [[c]]
      | g :: gs => if c = sep then [] :: g :: gs else (c :: g) :: gs

/-- Digits-only string to number. -/
def digitsToNat (l : List Char) : Option Nat :=
  if l ≠ [] ∧ l.all Char.isDigit then
    some (l.foldl (fun acc c => acc * 10 + (c.toNat - 48)) 0)
  else none

/-- Embeds `datetime.strptime(s, "%Y-%m-%d")`: exactly four year digits, one or
two month digits, one or two day digits, separated by literal dashes and
consuming the whole string; the resulting `datetime` requires
`1 <= year`, `1 <= month <= 12` and `1 <= day <= daysInMonth`. -/
def parseDateYMD (s : String) : Option Date :=
  match splitOnChar '-' s.data with
  | [ys, ms, ds] =>
      match digitsToNat ys, digitsToNat ms, digitsToNat ds with
      | some y, some m, some d =>
          if ys.length = 4 ∧ ms.length ≤ 2 ∧ ds.length ≤ 2 ∧
             1 ≤ y ∧ 1 ≤ m ∧ m ≤ 12 ∧ 1 ≤ d ∧ d ≤ daysInMonth y m then
            some ⟨y, m, d⟩
          else none
      | _, _, _ => none
  | _ => none

/-- The argument-parsing prefix of `main` over the positional arguments
(`sys.argv[1:]`): zero arguments → process all data; one argument → a
single date, rejected if unparsable; two arguments → a range, rejected if
either date is unparsable or the start is after the end; more than two →
rejected. -/
def parseArgs (args : List String) : Except String (Option Date × Option Date) :=
  match args with
  | [] => .ok (none, none)
  | [a] =>
      match parseDateYMD a with
      | some d => .ok (some d, none)
      | none => .error "Error: Invalid date format. Use YYYY-MM-DD"
  | [a, b] =>
      match parseDateYMD a, parseDateYMD b with
      | some da, some db =>
          if Date.lt db da then
            .error "Error: Start date must be before or equal to end date"
          else .ok (some da, some db)
      | _, _ => .error "Error: Invalid date format. Use YYYY-MM-DD"
  | _ => .error "Error: Too many arguments."

/-- What a `main` invocation does: a usage error exits with status 1
before the database connection is opened; otherwise the pipeline runs
against the database with the parsed filter. -/
inductive MainAction where
  | usage_exit : MainAction
  | db_run : Option Date → Option Date → MainAction
deriving DecidableEq, Repr

/-- The dispatch `main` performs on its arguments: all argument validation
happens before `psycopg2.connect`, so a parse failure never touches the
database. -/
def main_dispatch (args : List String) : MainAction :=
  match parseArgs args with
  | .error _ => .usage_exit
  | .ok (s, e) => .db_run s e

/-! ## Sample data (concrete rows used to exercise the theorems) -/

/-- The worked example of the spec: business date 2025-03-10, birthdate
2000-03-10, ggr 100, returns 20, eurorate 0.92, vipstatus " ELITE ". -/
def sampleSrc : SourceRecord :=
  { date := ⟨2025, 3, 10⟩
    country := "MT"
    sex := "M"
    birthdate := ⟨2000, 3, 10⟩
    vipstatus := " ELITE "
    ggr := 100
    returns := 20
    eurorate := some (92 / 100)
    casinomanufacturername := none
    casinoprovidername := none
    currencyid := 1 }

/-- A row with no published currency rate and missing dimension names. -/
def sampleSrcNoRate : SourceRecord :=
  { sampleSrc with eurorate := none }

/-- A row whose birthdate lies after the business date (negative age). -/
def sampleSrcFuture : SourceRecord :=
  { sampleSrc with birthdate := ⟨2030, 1, 1⟩, date := ⟨2025, 1, 1⟩, eurorate := none }

/-- A concrete gold row (integral amounts keep kernel evaluation cheap). -/
def sampleGold : GoldRecord :=
  { date := ⟨2025, 3, 10⟩
    country := "MT"
    sex := "M"
    agegroup := some "21-26"
    vipstatus := "ELITE"
    casinomanufacturername := "Unknown"
    casinoprovidername := "Unknown"
    ggr_eur := 92
    returns_eur := 18 }

/-- A second gold row with a different natural key. -/
def sampleGold2 : GoldRecord :=
  { sampleGold with country := "DE", ggr_eur := 10 }

/-- A one-row target table already holding `sampleGold`. -/
def sampleTable : Table := [⟨sampleGold, 5, 5⟩]

/-- An empty source database (enough to exercise the extractor contract). -/
def sampleDB : SourceDB := ⟨[], [], [], [], []⟩

/-! ## Basic facts about the transformer -/

theorem transform_data_length (l : List SourceRecord) :
    (transform_data l).length = l.length := by
  cases l with
  | nil => rfl
  | cons a t => simp [transform_data]

theorem transform_data_cons (a : SourceRecord) (t : List SourceRecord) :
    transform_data (a :: t) = transformRow a :: transform_data t := by
  cases t with
  | nil => rfl
  | cons b u => rfl

/-- The function `ageGroup` unfolded to its seven interval tests, in bin order. -/
theorem ageGroup_def (a : ℚ) : ageGroup a =
    if 0 ≤ a ∧ a < 18 then some "Under 18"
    else if 18 ≤ a ∧ a < 21 then some "18-20"
    else if 21 ≤ a ∧ a < 27 then some "21-26"
    else if 27 ≤ a ∧ a < 33 then some "27-32"
    else if 33 ≤ a ∧ a < 41 then some "33-40"
    else if 41 ≤ a ∧ a < 50 then some "41-50"
    else if 50 ≤ a ∧ a < 999 then some "50+"
    else none := rfl

theorem ageGroup_band1 (a : ℚ) (h1 : 0 ≤ a) (h2 : a < 18) :
    ageGroup a = some "Under 18" := by
  rw [ageGroup_def, if_pos ⟨h1, h2⟩]

theorem ageGroup_band2 (a : ℚ) (h1 : 18 ≤ a) (h2 : a < 21) :
    ageGroup a = some "18-20" := by
  rw [ageGroup_def, if_neg (by rintro ⟨_, h⟩; linarith), if_pos ⟨h1, h2⟩]

theorem ageGroup_band3 (a : ℚ) (h1 : 21 ≤ a) (h2 : a < 27) :
    ageGroup a = some "21-26" := by
  rw [ageGroup_def, if_neg (by rintro ⟨_, h⟩; linarith),
      if_neg (by rintro ⟨_, h⟩; linarith), if_pos ⟨h1, h2⟩]

theorem ageGroup_band4 (a : ℚ) (h1 : 27 ≤ a) (h2 : a < 33) :
    ageGroup a = some "27-32" := by
  rw [ageGroup_def, if_neg (by rintro ⟨_, h⟩; linarith),
      if_neg (by rintro ⟨_, h⟩; linarith),
      if_neg (by rintro ⟨_, h⟩; linarith), if_pos ⟨h1, h2⟩]

theorem ageGroup_band5 (a : ℚ) (h1 : 33 ≤ a) (h2 : a < 41) :
    ageGroup a = some "33-40" := by
  rw [ageGroup_def, if_neg (by rintro ⟨_, h⟩; linarith),
      if_neg (by rintro ⟨_, h⟩; linarith),
      if_neg (by rintro ⟨_, h⟩; linarith),
      if_neg (by rintro ⟨_, h⟩; linarith), if_pos ⟨h1, h2⟩]

theorem ageGroup_band6 (a : ℚ) (h1 : 41 ≤ a) (h2 : a < 50) :
    ageGroup a = some "41-50" := by
  rw [ageGroup_def, if_neg (by rintro ⟨_, h⟩; linarith),
      if_neg (by rintro ⟨_, h⟩; linarith),
      if_neg (by rintro ⟨_, h⟩; linarith),
      if_neg (by rintro ⟨_, h⟩; linarith),
      if_neg (by rintro ⟨_, h⟩; linarith), if_pos ⟨h1, h2⟩]

theorem ageGroup_band7 (a : ℚ) (h1 : 50 ≤ a) (h2 : a < 999) :
    ageGroup a = some "50+" := by
  rw [ageGroup_def, if_neg (by rintro ⟨_, h⟩; linarith),
      if_neg (by rintro ⟨_, h⟩; linarith),
      if_neg (by rintro ⟨_, h⟩; linarith),
      if_neg (by rintro ⟨_, h⟩; linarith),
      if_neg (by rintro ⟨_, h⟩; linarith),
      if_neg (by rintro ⟨_, h⟩; linarith), if_pos ⟨h1, h2⟩]

theorem ageGroup_none_of_out_of_range (a : ℚ) (h : a < 0 ∨ 999 ≤ a) :
    ageGroup a = none := by
  rcases h with h | h
  · rw [ageGroup_def,
        if_neg (by rintro ⟨h1, _⟩; linarith),
        if_neg (by rintro ⟨h1, _⟩; linarith),
        if_neg (by rintro ⟨h1, _⟩; linarith),
        if_neg (by rintro ⟨h1, _⟩; linarith),
        if_neg (by rintro ⟨h1, _⟩; linarith),
        if_neg (by rintro ⟨h1, _⟩; linarith),
        if_neg (by rintro ⟨h1, _⟩; linarith)]
  · rw [ageGroup_def,
        if_neg (by rintro ⟨_, h2⟩; linarith),
        if_neg (by rintro ⟨_, h2⟩; linarith),
        if_neg (by rintro ⟨_, h2⟩; linarith),
        if_neg (by rintro ⟨_, h2⟩; linarith),
        if_neg (by rintro ⟨_, h2⟩; linarith),
        if_neg (by rintro ⟨_, h2⟩; linarith),
        if_neg (by rintro ⟨_, h2⟩; linarith)]

/-! ## Facts about the loader's upsert -/

theorem hasKey_iff (t : Table) (r : GoldRecord) :
    hasKey t r = true ↔ r ∈ t.map (·.gold) := by
  simp only [hasKey, List.any_eq_true, decide_eq_true_eq, List.mem_map]

theorem upsert_map_gold_of_hasKey (now : Nat) (t : Table) (r : GoldRecord)
    (h : hasKey t r = true) :
    (upsert now t r).map (·.gold) = t.map (·.gold) := by
  unfold upsert
  rw [if_pos h, List.map_map]
  apply List.map_congr_left
  intro s _
  simp only [Function.comp_apply]
  split <;> rfl

theorem upsert_map_gold_of_not_hasKey (now : Nat) (t : Table) (r : GoldRecord)
    (h : hasKey t r = false) :
    (upsert now t r).map (·.gold) = t.map (·.gold) ++ [r] := by
  unfold upsert
  rw [if_neg (by simp [h]), List.map_append]
  rfl

theorem upsert_length_of_hasKey (now : Nat) (t : Table) (r : GoldRecord)
    (h : hasKey t r = true) : (upsert now t r).length = t.length := by
  unfold upsert
  rw [if_pos h, List.length_map]

theorem hasKey_upsert_self (now : Nat) (t : Table) (r : GoldRecord) :
    hasKey (upsert now t r) r = true := by
  rw [hasKey_iff]
  cases h : hasKey t r
  · rw [upsert_map_gold_of_not_hasKey now t r h]
    simp
  · rw [upsert_map_gold_of_hasKey now t r h]
    exact (hasKey_iff t r).1 h

theorem hasKey_upsert_mono (now : Nat) (t : Table) (r x : GoldRecord)
    (h : hasKey t x = true) : hasKey (upsert now t r) x = true := by
  rw [hasKey_iff]
  cases hk : hasKey t r
  · rw [upsert_map_gold_of_not_hasKey now t r hk]
    exact List.mem_append_left _ ((hasKey_iff t x).1 h)
  · rw [upsert_map_gold_of_hasKey now t r hk]
    exact (hasKey_iff t x).1 h

theorem foldl_upsert_hasKey_mono (now : Nat) (b : List GoldRecord) :
    ∀ (t : Table) (x : GoldRecord), hasKey t x = true →
      hasKey (b.foldl (upsert now) t) x = true := by
  induction b with
  | nil => intro t x h; exact h
  | cons a b ih =>
      intro t x h
      exact ih (upsert now t a) x (hasKey_upsert_mono now t a x h)

theorem foldl_upsert_hasKey_all (now : Nat) (b : List GoldRecord) :
    ∀ (t : Table) (x : GoldRecord), x ∈ b →
      hasKey (b.foldl (upsert now) t) x = true := by
  induction b with
  | nil => intro t x h; cases h
  | cons a b ih =>
      intro t x h
      rcases List.mem_cons.1 h with rfl | h
      · exact foldl_upsert_hasKey_mono now b (upsert now t x) x
          (hasKey_upsert_self now t x)
      · exact ih (upsert now t a) x h

theorem foldl_upsert_length_of_all (now : Nat) (b : List GoldRecord) :
    ∀ t : Table, (∀ x ∈ b, hasKey t x = true) →
      (b.foldl (upsert now) t).length = t.length := by
  induction b with
  | nil => intro t _; rfl
  | cons a b ih =>
      intro t h
      rw [List.foldl_cons,
        ih (upsert now t a) (fun x hx =>
          hasKey_upsert_mono now t a x (h x (List.mem_cons_of_mem a hx))),
        upsert_length_of_hasKey now t a (h a (List.mem_cons_self a b))]

theorem load_data_eq_foldl (now : Nat) (t : Table) (b : List GoldRecord) :
    load_data now t b = b.foldl (upsert now) t := by
  cases b <;> rfl

theorem upsert_nodup (now : Nat) (t : Table) (r : GoldRecord)
    (h : (t.map (·.gold)).Nodup) : ((upsert now t r).map (·.gold)).Nodup := by
  cases hk : hasKey t r
  · rw [upsert_map_gold_of_not_hasKey now t r hk]
    refine List.Nodup.append h (List.nodup_singleton r) ?_
    intro x hx hmem
    rcases List.mem_singleton.1 hmem with rfl
    exact absurd ((hasKey_iff t x).2 hx) (by simp [hk])
  · rw [upsert_map_gold_of_hasKey now t r hk]
    exact h

theorem foldl_upsert_nodup (now : Nat) (b : List GoldRecord) :
    ∀ t : Table, (t.map (·.gold)).Nodup →
      ((b.foldl (upsert now) t).map (·.gold)).Nodup := by
  induction b with
  | nil => intro t h; exact h
  | cons a b ih => intro t h; exact ih (upsert now t a) (upsert_nodup now t a h)

/-- A negative day count gives a negative age. -/
theorem ageOf_neg_of_daysBetween_neg (r : SourceRecord)
    (h : daysBetween r.birthdate r.date < 0) : ageOf r < 0 := by
  unfold ageOf
  apply div_neg_of_neg_of_pos
  · exact_mod_cast h
  · norm_num

/-! ## Claim theorems -/

/-- C1: for every input row the transformer assigns `agegroup` by a
left-closed/right-open bucketing of `age = (business_date - birthdate in
days) / 365.25` into seven bands `[0,18) ↦ "Under 18"`, `[18,21) ↦ "18-20"`,
`[21,27) ↦ "21-26"`, `[27,33) ↦ "27-32"`, `[33,41) ↦ "33-40"`,
`[41,50) ↦ "41-50"`, `[50,999) ↦ "50+"`; in particular age exactly 18
maps to "18-20" and age 17.999 maps to "Under 18". -/
theorem c1_agegroup_bucketing (r : SourceRecord) (a : ℚ) :
    (transformRow r).agegroup
      = ageGroup (((daysBetween r.birthdate r.date : Int) : ℚ) / (1461 / 4)) ∧
    ((0 ≤ a ∧ a < 18) → ageGroup a = some "Under 18") ∧
    ((18 ≤ a ∧ a < 21) → ageGroup a = some "18-20") ∧
    ((21 ≤ a ∧ a < 27) → ageGroup a = some "21-26") ∧
    ((27 ≤ a ∧ a < 33) → ageGroup a = some "27-32") ∧
    ((33 ≤ a ∧ a < 41) → ageGroup a = some "33-40") ∧
    ((41 ≤ a ∧ a < 50) → ageGroup a = some "41-50") ∧
    ((50 ≤ a ∧ a < 999) → ageGroup a = some "50+") ∧
    ageGroup 18 = some "18-20" ∧
    ageGroup (17999 / 1000) = some "Under 18" := by
  refine ⟨rfl, fun h => ageGroup_band1 a h.1 h.2, fun h => ageGroup_band2 a h.1 h.2,
    fun h => ageGroup_band3 a h.1 h.2, fun h => ageGroup_band4 a h.1 h.2,
    fun h => ageGroup_band5 a h.1 h.2, fun h => ageGroup_band6 a h.1 h.2,
    fun h => ageGroup_band7 a h.1 h.2, ?_, ?_⟩
  · exact ageGroup_band2 18 (by norm_num) (by norm_num)
  · exact ageGroup_band1 (17999 / 1000) (by norm_num) (by norm_num)

/-- Witness for C1: each band hypothesis discharged at a concrete age. -/
theorem c1_agegroup_bucketing_witness :
    ageGroup 10 = some "Under 18" ∧ ageGroup 19 = some "18-20" ∧
    ageGroup 25 = some "21-26" ∧ ageGroup 30 = some "27-32" ∧
    ageGroup 40 = some "33-40" ∧ ageGroup 45 = some "41-50" ∧
    ageGroup 60 = some "50+" :=
  ⟨(c1_agegroup_bucketing sampleSrc 10).2.1 ⟨by norm_num, by norm_num⟩,
   (c1_agegroup_bucketing sampleSrc 19).2.2.1 ⟨by norm_num, by norm_num⟩,
   (c1_agegroup_bucketing sampleSrc 25).2.2.2.1 ⟨by norm_num, by norm_num⟩,
   (c1_agegroup_bucketing sampleSrc 30).2.2.2.2.1 ⟨by norm_num, by norm_num⟩,
   (c1_agegroup_bucketing sampleSrc 40).2.2.2.2.2.1 ⟨by norm_num, by norm_num⟩,
   (c1_agegroup_bucketing sampleSrc 45).2.2.2.2.2.2.1 ⟨by norm_num, by norm_num⟩,
   (c1_agegroup_bucketing sampleSrc 60).2.2.2.2.2.2.2.1 ⟨by norm_num, by norm_num⟩⟩

/-- C2: VIP status normalization first strips and uppercases the raw value,
then maps it through the fixed table (with the embedded-space keys matching
only those exact malformed values), and unmapped values pass through in
trimmed-uppercase form: "  not vip  " ↦ "Not VIP", "bronz e" ↦ "Bronze"
(any case/whitespace), "Gold" ↦ "GOLD", while a well-formed "Bronze" does
not hit the "BRONZ E" key. -/
theorem c2_vipstatus_normalization (r : SourceRecord) (s : String) :
    (transformRow r).vipstatus = normalizeVip r.vipstatus ∧
    normalizeVip s
      = (vip_mapping.lookup (pyUpper (pyStrip s))).getD (pyUpper (pyStrip s)) ∧
    normalizeVip "  not vip  " = "Not VIP" ∧
    normalizeVip "potential" = "Potential" ∧
    normalizeVip "bronz e" = "Bronze" ∧
    normalizeVip " BrOnZ e  " = "Bronze" ∧
    normalizeVip "eli t e" = "Elite" ∧
    normalizeVip "Gold" = "GOLD" ∧
    normalizeVip "Bronze" = "BRONZE" := by
  refine ⟨rfl, ?_, by decide, by decide, by decide, by decide, by decide,
    by decide, by decide⟩
  cases h : vip_mapping.lookup (pyUpper (pyStrip s)) <;>
    simp [normalizeVip, h]

/-- C3: with a present `eurorate` the transformer produces
`ggr_eur = ggr * eurorate` and `returns_eur = returns * eurorate`; with an
absent `eurorate` both default to 0 and the row is not omitted; absent
manufacturer/provider names default to the literal "Unknown". -/
theorem c3_currency_conversion_defaults (r : SourceRecord) (q : ℚ)
    (l : List SourceRecord) :
    (r.eurorate = some q →
      (transformRow r).ggr_eur = r.ggr * q ∧
      (transformRow r).returns_eur = r.returns * q) ∧
    (r.eurorate = none →
      (transformRow r).ggr_eur = 0 ∧ (transformRow r).returns_eur = 0) ∧
    (r.casinomanufacturername = none →
      (transformRow r).casinomanufacturername = "Unknown") ∧
    (r.casinoprovidername = none →
      (transformRow r).casinoprovidername = "Unknown") ∧
    (r.casinomanufacturername = none →
      (transformRow r).casinomanufacturername ≠ "") ∧
    (r.casinoprovidername = none → (transformRow r).casinoprovidername ≠ "") ∧
    (transform_data l).length = l.length := by
  refine ⟨fun h => ⟨?_, ?_⟩, fun h => ⟨?_, ?_⟩, fun h => ?_, fun h => ?_,
    fun h => ?_, fun h => ?_, transform_data_length l⟩ <;>
  simp [transformRow, h]

/-- Witness for C3: the conversion and defaulting hypotheses discharged on
the spec's worked example and on a rate-less row. -/
theorem c3_currency_conversion_defaults_witness :
    ((transformRow sampleSrc).ggr_eur = sampleSrc.ggr * (92 / 100) ∧
     (transformRow sampleSrc).returns_eur = sampleSrc.returns * (92 / 100)) ∧
    ((transformRow sampleSrcNoRate).ggr_eur = 0 ∧
     (transformRow sampleSrcNoRate).returns_eur = 0) ∧
    (transformRow sampleSrcNoRate).casinomanufacturername = "Unknown" ∧
    (transformRow sampleSrcNoRate).casinoprovidername = "Unknown" :=
  ⟨(c3_currency_conversion_defaults sampleSrc (92 / 100) []).1 rfl,
   ((c3_currency_conversion_defaults sampleSrcNoRate 0 []).2.1) rfl,
   ((c3_currency_conversion_defaults sampleSrcNoRate 0 []).2.2.1) rfl,
   ((c3_currency_conversion_defaults sampleSrcNoRate 0 []).2.2.2.1) rfl⟩

/-- C6: the transformer on an empty input returns an empty result (not an
error), and the loader on an empty batch is an explicit early-return no-op
leaving the table untouched. -/
theorem c6_empty_input_noop :
    transform_data [] = [] ∧
    (∀ (now : Nat) (t : Table), load_data now t [] = t) :=
  ⟨rfl, fun _ _ => rfl⟩

/-- C10: a row whose computed age is negative or at least 999 is neither
an error nor dropped: it is transformed to a row with no age band
(`agegroup = none`) while every other derived field is computed normally. -/
theorem c10_out_of_range_age (r : SourceRecord)
    (h : ageOf r < 0 ∨ 999 ≤ ageOf r) :
    (transformRow r).agegroup = none ∧
    transform_data [r] = [transformRow r] ∧
    (transformRow r).date = r.date ∧
    (transformRow r).country = r.country ∧
    (transformRow r).sex = r.sex ∧
    (transformRow r).vipstatus = normalizeVip r.vipstatus ∧
    (transformRow r).casinomanufacturername = r.casinomanufacturername.getD "Unknown" ∧
    (transformRow r).casinoprovidername = r.casinoprovidername.getD "Unknown" ∧
    (r.eurorate = none → (transformRow r).ggr_eur = 0 ∧ (transformRow r).returns_eur = 0) := by
  refine ⟨?_, rfl, rfl, rfl, rfl, rfl, rfl, rfl, fun he => ?_⟩
  · exact ageGroup_none_of_out_of_range _ h
  · simp [transformRow, he]

/-- Witness for C10: a birthdate after the business date (negative age). -/
theorem c10_out_of_range_age_witness :
    (transformRow sampleSrcFuture).agegroup = none ∧
    transform_data [sampleSrcFuture] = [transformRow sampleSrcFuture] :=
  ⟨(c10_out_of_range_age sampleSrcFuture
      (Or.inl (ageOf_neg_of_daysBetween_neg _ (by decide)))).1,
   (c10_out_of_range_age sampleSrcFuture
      (Or.inl (ageOf_neg_of_daysBetween_neg _ (by decide)))).2.1⟩

/-- C4: loading the same batch a second time leaves the target table with
the same row count; the 9-column natural key (modelled as the whole
`GoldRecord`) stays unique in the table; and re-loading an already-loaded
key-tuple creates no new row, only touching `updated_at` (the key multiset
of the table is unchanged). -/
theorem c4_idempotent_load (now1 now2 : Nat) (t : Table) (b : List GoldRecord)
    (hnd : (t.map (·.gold)).Nodup) :
    (load_data now2 (load_data now1 t b) b).length = (load_data now1 t b).length ∧
    ((load_data now1 t b).map (·.gold)).Nodup ∧
    (∀ r, hasKey t r = true →
      (upsert now1 t r).length = t.length ∧
      (upsert now1 t r).map (·.gold) = t.map (·.gold)) := by
  refine ⟨?_, ?_, fun r h => ⟨upsert_length_of_hasKey now1 t r h,
    upsert_map_gold_of_hasKey now1 t r h⟩⟩
  · rw [load_data_eq_foldl now1, load_data_eq_foldl now2]
    exact foldl_upsert_length_of_all now2 b _
      (fun x hx => foldl_upsert_hasKey_all now1 b t x hx)
  · rw [load_data_eq_foldl now1]
    exact foldl_upsert_nodup now1 b t hnd

/-- Witness for C4: a concrete one-row table reloaded with a two-row batch. -/
theorem c4_idempotent_load_witness :
    (load_data 7 (load_data 6 sampleTable [sampleGold, sampleGold2])
        [sampleGold, sampleGold2]).length
      = (load_data 6 sampleTable [sampleGold, sampleGold2]).length ∧
    (upsert 6 sampleTable sampleGold).length = sampleTable.length :=
  ⟨(c4_idempotent_load 6 7 sampleTable [sampleGold, sampleGold2] (by decide)).1,
   ((c4_idempotent_load 6 7 sampleTable [sampleGold, sampleGold2]
      (by decide)).2.2 sampleGold (by decide)).1⟩

/-- C5: when a loaded row collides on the natural key with an existing
table row, the upsert only refreshes `updated_at`: the row count is
unchanged, every row keeps its business columns and its `created_at`, and
rows with a different key are untouched entirely. -/
theorem c5_conflict_touches_only_updated_at (now : Nat) (t : Table)
    (r : GoldRecord) (h : hasKey t r = true) :
    (upsert now t r).length = t.length ∧
    (∀ i : Nat, ((upsert now t r)[i]?).map (·.gold) = (t[i]?).map (·.gold)) ∧
    (∀ i : Nat,
      ((upsert now t r)[i]?).map (·.created_at) = (t[i]?).map (·.created_at)) ∧
    (∀ (i : Nat) (s : StoredRow), t[i]? = some s → s.gold ≠ r →
      (upsert now t r)[i]? = some s) := by
  have hup : upsert now t r
      = t.map (fun s => if s.gold = r then { s with updated_at := now } else s) := by
    unfold upsert; rw [if_pos h]
  refine ⟨upsert_length_of_hasKey now t r h, fun i => ?_, fun i => ?_,
    fun i s hs hne => ?_⟩
  · rw [hup, List.getElem?_map]
    cases t[i]? with
    | none => rfl
    | some s => simp only [Option.map_some']; split <;> rfl
  · rw [hup, List.getElem?_map]
    cases t[i]? with
    | none => rfl
    | some s => simp only [Option.map_some']; split <;> rfl
  · rw [hup, List.getElem?_map, hs]
    simp only [Option.map_some', if_neg hne]

/-- Witness for C5: a collision on the concrete one-row table. -/
theorem c5_conflict_touches_only_updated_at_witness :
    (upsert 9 sampleTable sampleGold).length = sampleTable.length ∧
    ((upsert 9 sampleTable sampleGold)[0]?).map (·.gold)
      = (sampleTable[0]?).map (·.gold) ∧
    ((upsert 9 sampleTable sampleGold)[0]?).map (·.created_at)
      = (sampleTable[0]?).map (·.created_at) :=
  ⟨(c5_conflict_touches_only_updated_at 9 sampleTable sampleGold (by decide)).1,
   (c5_conflict_touches_only_updated_at 9 sampleTable sampleGold (by decide)).2.1 0,
   (c5_conflict_touches_only_updated_at 9 sampleTable sampleGold (by decide)).2.2.1 0⟩

/-- Folding page-by-page is the same as folding over the flat batch: the
page size of the bulk statement cannot change the transaction's result. -/
theorem toPages_foldlM (apply : Table → GoldRecord → Except String Table)
    (n : Nat) (l : List GoldRecord) :
    ∀ t : Table, (toPages n l).foldlM (applyPage apply) t = l.foldlM apply t := by
  induction l using toPages.induct n with
  | case1 => intro t; simp [toPages]
  | case2 x xs ih =>
      intro t
      simp only [toPages, List.foldlM_cons, applyPage]
      simp only [ih]
      conv_rhs => rw [← List.take_append_drop (n - 1) xs]
      simp only [List.foldlM_append, bind_assoc]

theorem applyPages_eq (apply : Table → GoldRecord → Except String Table)
    (n : Nat) (t : Table) (l : List GoldRecord) :
    applyPages apply n t l = l.foldlM apply t :=
  toPages_foldlM apply n l t

/-- When every row application succeeds, the transactional fold is the plain
sequence of upserts. -/
theorem foldlM_upsert_ok (now : Nat) (l : List GoldRecord) :
    ∀ t : Table,
      l.foldlM (fun tt r => (Except.ok (upsert now tt r) : Except String Table)) t
        = Except.ok (l.foldl (upsert now) t) := by
  induction l with
  | nil => intro t; rfl
  | cons a l ih =>
      intro t
      rw [List.foldlM_cons, List.foldl_cons]
      exact ih (upsert now t a)

/-- C8: the non-empty load commits as one transaction: the durable state is
either the original table (on any row failure inside the batch: nothing is
committed) or the fully applied batch (on success), independently of the
bulk statement's page size; with failure-free upserts it equals `load_data`. -/
theorem c8_single_transaction (apply : Table → GoldRecord → Except String Table)
    (n now : Nat) (t : Table) (batch : List GoldRecord) :
    applyPages apply n t batch = batch.foldlM apply t ∧
    (∀ e, batch.foldlM apply t = .error e → load_data_tx apply n t batch = t) ∧
    (∀ t2, batch.foldlM apply t = .ok t2 → load_data_tx apply n t batch = t2) ∧
    load_data_tx (fun tt r => Except.ok (upsert now tt r)) n t batch
      = load_data now t batch := by
  refine ⟨applyPages_eq apply n t batch, ?_, ?_, ?_⟩
  · intro e h
    cases batch with
    | nil => exact Except.noConfusion h
    | cons b bs =>
        simp only [load_data_tx, applyPages_eq, h]
  · intro t2 h
    cases batch with
    | nil =>
        cases h
        rfl
    | cons b bs =>
        simp only [load_data_tx, applyPages_eq, h]
  · cases batch with
    | nil => rfl
    | cons b bs =>
        simp only [load_data_tx, applyPages_eq, foldlM_upsert_ok,
          load_data_eq_foldl]

/-- Witness for C8: a failing row application commits nothing; a
failure-free run applies the full batch. -/
theorem c8_single_transaction_witness :
    load_data_tx (fun _ _ => Except.error "constraint violation") 1000
        sampleTable [sampleGold2] = sampleTable ∧
    load_data_tx (fun tt r => Except.ok (upsert 9 tt r)) 1000
        sampleTable [sampleGold2] = load_data 9 sampleTable [sampleGold2] :=
  ⟨(c8_single_transaction (fun _ _ => Except.error "constraint violation")
      1000 9 sampleTable [sampleGold2]).2.1 "constraint violation" rfl,
   (c8_single_transaction (fun _ _ => Except.error "unused") 1000 9
      sampleTable [sampleGold2]).2.2.2⟩

/-- C7: more than two positional arguments, any argument that is not a
parsable YYYY-MM-DD date, or a two-date range whose first date is after the
second, all make `main` exit with a usage error before any database work
(`main_dispatch` never reaches `db_run`). -/
theorem c7_usage_errors (args : List String) :
    (2 < args.length → main_dispatch args = .usage_exit) ∧
    (∀ a ∈ args, parseDateYMD a = none → main_dispatch args = .usage_exit) ∧
    (∀ a b da db, args = [a, b] → parseDateYMD a = some da →
      parseDateYMD b = some db → Date.lt db da →
      main_dispatch args = .usage_exit) := by
  refine ⟨?_, ?_, ?_⟩
  · intro hlen
    rcases args with _ | ⟨a, _ | ⟨b, _ | ⟨c, rest⟩⟩⟩
    · simp at hlen
    · simp at hlen
    · simp at hlen
    · rfl
  · intro a ha hpa
    rcases args with _ | ⟨x, _ | ⟨y, _ | ⟨z, rest⟩⟩⟩
    · simp at ha
    · rcases List.mem_singleton.1 ha with rfl
      simp [main_dispatch, parseArgs, hpa]
    · rcases List.mem_cons.1 ha with rfl | hy
      · cases h2 : parseDateYMD y <;>
          simp [main_dispatch, parseArgs, hpa, h2]
      · rcases List.mem_singleton.1 hy with rfl
        cases h1 : parseDateYMD x <;>
          simp [main_dispatch, parseArgs, hpa, h1]
    · rfl
  · intro a b da db hargs hpa hpb hlt
    subst hargs
    simp [main_dispatch, parseArgs, hpa, hpb, hlt]

/-- Witness for C7: three concrete bad invocations (too many arguments, an
unparsable day 32, a reversed range) all exit before the database. -/
theorem c7_usage_errors_witness :
    main_dispatch ["2025-03-01", "2025-03-10", "2025-03-12"] = .usage_exit ∧
    main_dispatch ["2025-03-32"] = .usage_exit ∧
    main_dispatch ["2025-03-10", "2025-03-01"] = .usage_exit :=
  ⟨(c7_usage_errors _).1 (by decide),
   (c7_usage_errors _).2.1 "2025-03-32" (by decide) (by decide),
   (c7_usage_errors _).2.2 "2025-03-10" "2025-03-01" ⟨2025, 3, 10⟩ ⟨2025, 3, 1⟩
     rfl (by decide) (by decide) (by decide)⟩

/-- The comparison of `order by cd.date` is transitive. -/
theorem dateLeB_trans (a b c : SourceRecord) (hab : dateLeB a b = true)
    (hbc : dateLeB b c = true) : dateLeB a c = true := by
  simp only [dateLeB, Date.le, decide_eq_true_eq] at *
  omega

/-- The comparison of `order by cd.date` is total. -/
theorem dateLeB_total (a b : SourceRecord) :
    (dateLeB a b || dateLeB b a) = true := by
  simp only [dateLeB, Date.le, Bool.or_eq_true, decide_eq_true_eq]
  omega

/-- The extractor's output is sorted ascending by business date. -/
theorem mergeSort_dateLe_pairwise (l : List SourceRecord) :
    (l.mergeSort dateLeB).Pairwise (fun a b => Date.le a.date b.date) :=
  (List.sorted_mergeSort dateLeB_trans dateLeB_total l).imp
    (fun h => by simpa [dateLeB] using h)

/-- C9: for every start ≤ end the extractor returns exactly the joined rows
whose business date lies in the inclusive window; a single-date call exactly
the rows with that date; an unfiltered call all joined rows; and each result
is sorted ascending by business date. -/
theorem c9_extract_window (db : SourceDB) (s e d : Date) (r : SourceRecord)
    (_hse : Date.le s e) :
    (r ∈ extract_data db (some s) (some e) ↔
      r ∈ joinAll db ∧ Date.le s r.date ∧ Date.le r.date e) ∧
    (r ∈ extract_data db (some d) none ↔ r ∈ joinAll db ∧ r.date = d) ∧
    (r ∈ extract_data db none none ↔ r ∈ joinAll db) ∧
    (extract_data db (some s) (some e)).Pairwise
      (fun a b => Date.le a.date b.date) ∧
    (extract_data db (some d) none).Pairwise
      (fun a b => Date.le a.date b.date) ∧
    (extract_data db none none).Pairwise
      (fun a b => Date.le a.date b.date) := by
  refine ⟨?_, ?_, ?_, ?_, ?_, ?_⟩
  · simp [extract_data, List.mem_mergeSort, List.mem_filter, and_assoc]
  · simp [extract_data, List.mem_mergeSort, List.mem_filter]
  · simp [extract_data, List.mem_mergeSort]
  · exact mergeSort_dateLe_pairwise _
  · exact mergeSort_dateLe_pairwise _
  · exact mergeSort_dateLe_pairwise _

/-- Witness for C9: a concrete window on a concrete database. -/
theorem c9_extract_window_witness :
    (sampleSrc ∈ extract_data sampleDB none none ↔ sampleSrc ∈ joinAll sampleDB) ∧
    (extract_data sampleDB (some ⟨2025, 1, 1⟩) (some ⟨2025, 1, 2⟩)).Pairwise
      (fun a b => Date.le a.date b.date) :=
  ⟨(c9_extract_window sampleDB ⟨2025, 1, 1⟩ ⟨2025, 1, 2⟩ ⟨2025, 1, 1⟩ sampleSrc
      (by decide)).2.2.1,
   (c9_extract_window sampleDB ⟨2025, 1, 1⟩ ⟨2025, 1, 2⟩ ⟨2025, 1, 1⟩ sampleSrc
      (by decide)).2.2.2.1⟩

end GamingEtl
